import Mathlib

/-!
Verification of the compas RPC `Proxy` (src/compas/rpc/proxy.py) and the
Blender `NetworkArtist` (src/compas_blender/artists/networkartist.py).

The proxy exchanges JSON envelopes with a background server process.  The
serialization layer (`json.dumps` / `json.loads` with the compas data
encoder/decoder) is not part of the sources under verification, so it is
modelled from the spec as a canonical JSON text format: a renderer emitting
the standard compact form (", " and ": " separators, as the Python encoder
does) and a recursive-descent parser for that form.  Numbers are modelled as
integers.
-/

namespace Compas

/-! ## JSON values

Modelled from the spec: the call and response envelopes are exchanged using
only primitive/structural values — numbers, strings, booleans, null, ordered
lists and string-keyed mappings. -/

mutual
inductive Json where
  | null : Json
  | bool (b : Bool) : Json
  | num (n : Int) : Json
  | str (s : String) : Json
  | arr (items : JArr) : Json
  | obj (fields : JObj) : Json
  deriving DecidableEq

inductive JArr where
  | nil : JArr
  | cons (hd : Json) (tl : JArr) : JArr
  deriving DecidableEq

inductive JObj where
  | nil : JObj
  | cons (key : String) (val : Json) (tl : JObj) : JObj
  deriving DecidableEq
end

/-! ## Rendering (serialization to the JSON text form) -/

/-- The decimal digit character for `d` (`d ≤ 9`). -/
def digitChar (d : Nat) : Char :=
  match d with
  | 0 => '0' | 1 => '1' | 2 => '2' | 3 => '3' | 4 => '4'
  | 5 => '5' | 6 => '6' | 7 => '7' | 8 => '8' | _ + 9 => '9'

/-- Fueled worker for decimal rendering; `fuel ≥ n` makes the result
independent of the fuel. -/
def renderNatGo : Nat → Nat → List Char
  | 0, n => [digitChar n]
  | fuel + 1, n =>
    if n < 10 then [digitChar n]
    else renderNatGo fuel (n / 10) ++ [digitChar (n % 10)]

/-- Decimal rendering of a natural number, most significant digit first. -/
def renderNat (n : Nat) : List Char := renderNatGo n n

/-- Decimal rendering of an integer. -/
def renderInt (n : Int) : List Char :=
  if n < 0 then '-' :: renderNat (-n).toNat else renderNat n.toNat

/-- JSON string-body escaping: quote and backslash get a backslash prefix. -/
def escapeChars : List Char → List Char
  | [] => []
  | c :: rest =>
    if c = '"' ∨ c = '\\' then '\\' :: c :: escapeChars rest
    else c :: escapeChars rest

/-- The rendered `null` keyword. -/
def nullChars : List Char := ['n', 'u', 'l', 'l']

/-- The rendered `true` keyword. -/
def trueChars : List Char := ['t', 'r', 'u', 'e']

/-- The rendered `false` keyword. -/
def falseChars : List Char := ['f', 'a', 'l', 's', 'e']

mutual
/-- Render a JSON value in the canonical compact text form produced by the
Python encoder (default separators `", "` and `": "`). -/
def renderJson : Json → List Char
  | .null => nullChars
  | .bool true => trueChars
  | .bool false => falseChars
  | .num n => renderInt n
  | .str s => '"' :: (escapeChars s.data ++ ['"'])
  | .arr items => '[' :: renderArrItems items
  | .obj fields => '\x7b' :: renderObjItems fields

/-- Render the contents of an array, including the closing bracket. -/
def renderArrItems : JArr → List Char
  | .nil => [']']
  | .cons hd tl => renderJson hd ++ renderArrSep tl

/-- Render the continuation of an array after one element. -/
def renderArrSep : JArr → List Char
  | .nil => [']']
  | .cons hd tl => ',' :: ' ' :: (renderJson hd ++ renderArrSep tl)

/-- Render the contents of an object, including the closing brace. -/
def renderObjItems : JObj → List Char
  | .nil => ['\x7d']
  | .cons k v tl =>
    '"' :: (escapeChars k.data ++ ('"' :: ':' :: ' ' :: (renderJson v ++ renderObjSep tl)))

/-- Render the continuation of an object after one field. -/
def renderObjSep : JObj → List Char
  | .nil => ['\x7d']
  | .cons k v tl =>
    ',' :: ' ' :: ('"' :: (escapeChars k.data ++ ('"' :: ':' :: ' ' :: (renderJson v ++ renderObjSep tl))))
end

/-- Serialize a JSON value to its text form. -/
def Json.render (v : Json) : String := String.mk (renderJson v)

/-! ## Parsing -/

/-- Is `c` a decimal digit? -/
def isDigitCh (c : Char) : Bool := 48 ≤ c.toNat && c.toNat ≤ 57

/-- Numeric value of a digit character. -/
def digitVal (c : Char) : Nat := c.toNat - 48

/-- Consume a run of digits, accumulating their value onto `acc`. -/
def parseDigitsAux : List Char → Nat → Nat × List Char
  | [], acc => (acc, [])
  | c :: rest, acc =>
    if isDigitCh c then parseDigitsAux rest (acc * 10 + digitVal c)
    else (acc, c :: rest)

/-- Expect a fixed sequence of characters, returning the remainder. -/
def expectChars : List Char → List Char → Option (List Char)
  | [], rest => some rest
  | _ :: _, [] => none
  | e :: es, c :: rest => if c = e then expectChars es rest else none

mutual
/-- Parse a JSON string body (after the opening quote) up to the closing
quote, undoing the escaping. -/
def parseStrBody : List Char → Option (List Char × List Char)
  | [] => none
  | c :: rest =>
    if c = '"' then some ([], rest)
    else if c = '\\' then parseStrEsc rest
    else (parseStrBody rest).map (fun p => (c :: p.1, p.2))

/-- Parse the character after a backslash in a string body. -/
def parseStrEsc : List Char → Option (List Char × List Char)
  | [] => none
  | c :: rest =>
    if c = '"' ∨ c = '\\' then
      (parseStrBody rest).map (fun p => (c :: p.1, p.2))
    else none
end

/-- Parse the digits of a negative number, after the minus sign. -/
def parseNeg : List Char → Option (Json × List Char)
  | [] => none
  | c :: rest =>
    if isDigitCh c then
      some (.num (-((parseDigitsAux rest (digitVal c)).1 : Int)),
            (parseDigitsAux rest (digitVal c)).2)
    else none

mutual
/-- Parse one JSON value off the front of the input. -/
def parseValue : Nat → List Char → Option (Json × List Char)
  | 0, _ => none
  | _ + 1, [] => none
  | fuel + 1, c :: rest =>
    if c = 'n' then (expectChars ['u', 'l', 'l'] rest).map (fun r => (.null, r))
    else if c = 't' then (expectChars ['r', 'u', 'e'] rest).map (fun r => (.bool true, r))
    else if c = 'f' then (expectChars ['a', 'l', 's', 'e'] rest).map (fun r => (.bool false, r))
    else if c = '"' then
      (parseStrBody rest).map (fun p => (.str (String.mk p.1), p.2))
    else if c = '[' then
      (parseArrItems fuel rest).map (fun p => (.arr p.1, p.2))
    else if c = '\x7b' then
      (parseObjItems fuel rest).map (fun p => (.obj p.1, p.2))
    else if c = '-' then parseNeg rest
    else if isDigitCh c then
      some (.num ((parseDigitsAux rest (digitVal c)).1 : Int),
            (parseDigitsAux rest (digitVal c)).2)
    else none

/-- Parse the contents of an array, after the opening bracket. -/
def parseArrItems : Nat → List Char → Option (JArr × List Char)
  | 0, _ => none
  | _ + 1, [] => none
  | fuel + 1, c :: rest =>
    if c = ']' then some (.nil, rest)
    else
      (parseValue fuel (c :: rest)).bind (fun p =>
        (parseArrSep fuel p.2).map (fun q => (.cons p.1 q.1, q.2)))

/-- Parse the continuation of an array after one element. -/
def parseArrSep : Nat → List Char → Option (JArr × List Char)
  | 0, _ => none
  | _ + 1, [] => none
  | fuel + 1, c :: rest =>
    if c = ']' then some (.nil, rest)
    else if c = ',' then
      (expectChars [' '] rest).bind (fun rest2 =>
        (parseValue fuel rest2).bind (fun p =>
          (parseArrSep fuel p.2).map (fun q => (.cons p.1 q.1, q.2))))
    else none

/-- Parse the contents of an object, after the opening brace. -/
def parseObjItems : Nat → List Char → Option (JObj × List Char)
  | 0, _ => none
  | _ + 1, [] => none
  | fuel + 1, c :: rest =>
    if c = '\x7d' then some (.nil, rest)
    else if c = '"' then
      (parseStrBody rest).bind (fun kp =>
        (expectChars [':', ' '] kp.2).bind (fun rest3 =>
          (parseValue fuel rest3).bind (fun p =>
            (parseObjSep fuel p.2).map (fun q => (.cons (String.mk kp.1) p.1 q.1, q.2)))))
    else none

/-- Parse the continuation of an object after one field. -/
def parseObjSep : Nat → List Char → Option (JObj × List Char)
  | 0, _ => none
  | _ + 1, [] => none
  | fuel + 1, c :: rest =>
    if c = '\x7d' then some (.nil, rest)
    else if c = ',' then
      (expectChars [' ', '"'] rest).bind (fun rest2 =>
        (parseStrBody rest2).bind (fun kp =>
          (expectChars [':', ' '] kp.2).bind (fun rest4 =>
            (parseValue fuel rest4).bind (fun p =>
              (parseObjSep fuel p.2).map (fun q => (.cons (String.mk kp.1) p.1 q.1, q.2))))))
    else none
end

/-- Deserialize a JSON text: the whole input must be a single value. -/
def Json.parse (s : String) : Option Json :=
  (parseValue (2 * s.data.length) s.data).bind
    (fun p => if p.2 = [] then some p.1 else none)

/-! ## Round-trip: parsing a rendered value returns it

The size functions below bound the parser fuel a value needs. -/

mutual
/-- Fuel bound for parsing a rendered value. -/
def jsize : Json → Nat
  | .arr items => asize items + 1
  | .obj fields => osize fields + 1
  | _ => 1

/-- Fuel bound for parsing rendered array contents. -/
def asize : JArr → Nat
  | .nil => 1
  | .cons hd tl => jsize hd + asize tl + 1

/-- Fuel bound for parsing rendered object contents. -/
def osize : JObj → Nat
  | .nil => 1
  | .cons _ v tl => jsize v + osize tl + 1
end

/-- Does the input start with a decimal digit? -/
def leadDigit : List Char → Bool
  | [] => false
  | c :: _ => isDigitCh c

/-- Value of a digit run, folded onto an accumulator. -/
def digitsVal (ds : List Char) (acc : Nat) : Nat :=
  ds.foldl (fun a c => a * 10 + digitVal c) acc

/-! ## The RPC proxy (src/compas/rpc/proxy.py)

State-changing operations return the updated `ProxyState`; a raised exception
is an `Except.error`.  Interactions with the outside world (pings, the
transport call, process control) are outcomes drawn from an explicit
environment `Env`, so the theorems quantify over every possible behaviour of
the server and the operating system. -/

/-- Handle on a spawned background process (`subprocess.Popen`). -/
structure Process where
  alive : Bool
  deriving DecidableEq

/-- Exceptions the embedded code raises or observes. -/
inductive Exc where
  /-- `compas.rpc.RPCServerError`, with the message passed to the constructor. -/
  | rpcServerError (msg : Json)
  /-- `json.loads` failure on a malformed response. -/
  | jsonDecodeError
  /-- missing envelope field (`KeyError`, or `TypeError` on a non-mapping) -/
  | keyError (key : String)
  /-- `NotImplementedError` (unsupported label-text shape) -/
  | notImplementedError
  /-- any other exception (transport failures, `AttributeError`, ...) -/
  | other (tag : Nat)
  deriving DecidableEq

/-- The mutable attributes of a `Proxy` instance (proxy.py 119-127).  The
connected `ServerProxy` is identified by the address it serves. -/
structure ProxyState where
  _process : Option Process
  _server : Option String
  _profile : Option Json
  _package : Option String
  _url : String
  _port : Nat
  deriving DecidableEq

/-- Outcomes of the operations that touch the outside world. -/
structure Env where
  /-- outcome of the single `ping` in `try_reconnect`onto the given address -/
  pingOnce : String → Except Exc Unit
  /-- outcome of the i-th `ping` of the polling loop in `start_server` -/
  ping : Nat → Except Exc Unit
  /-- the process produced by `Popen` -/
  spawn : Process
  /-- outcome of `self._server.remote_shutdown()` -/
  remoteShutdown : Option String → Except Exc Unit
  /-- outcome of `self._process.terminate()` -/
  terminate : Process → Except Exc Unit
  /-- outcome of `self._process.kill()` -/
  kill : Process → Except Exc Unit
  /-- outcome of the transport call `self._function(istring)` -/
  call : String → Except Exc String

/-- `Proxy.address`: `"{}:{}".format(self._url, self._port)` (proxy.py 138-140). -/
def ProxyState.address (st : ProxyState) : String :=
  st._url ++ ":" ++ toString st._port

/-- `Proxy.try_reconnect` (proxy.py 158-172): ping the configured address,
return the server on success and `None` on any exception. -/
def try_reconnect (env : Env) (st : ProxyState) : Option String :=
  let server := st.address
  match env.pingOnce server with
  | .error _ => none
  | .ok _ => some server

/-- The retry loop of `Proxy.start_server` (proxy.py 195-205):
`count = 100; while count: try: ping / except: sleep; count -= 1 / else: break`.
`i` numbers the attempts; the result is the `success` flag. -/
def pollLoop (ping : Nat → Except Exc Unit) (i : Nat) : Nat → Bool
  | 0 => false
  | count + 1 =>
    match ping i with
    | .ok _ => true
    | .error _ => pollLoop ping (i + 1) count

/-- `Proxy.start_server` (proxy.py 174-209): spawn the process, then poll up
to 100 times; raise `RPCServerError` if no ping succeeds. -/
def start_server (env : Env) (st : ProxyState) : Except Exc ProxyState :=
  let st1 := { st with _process := some env.spawn }
  let server := st1.address
  if pollLoop env.ping 0 100 then .ok { st1 with _server := some server }
  else .error (.rpcServerError (.str "The server is no available."))

/-- `Proxy._terminate_process` (proxy.py 220-236): no-op without a process,
otherwise best-effort `terminate` then `kill`, each failure swallowed. -/
def _terminate_process (env : Env) (st : ProxyState) : Except Exc ProxyState :=
  match st._process with
  | none => .ok st
  | some p =>
    let p1 := match env.terminate p with
      | .ok _ => { p with alive := false }
      | .error _ => p
    let p2 := match env.kill p1 with
      | .ok _ => { p1 with alive := false }
      | .error _ => p1
    .ok { st with _process := some p2 }

/-- `Proxy.stop_server` (proxy.py 211-218): best-effort remote shutdown (any
failure swallowed), then `_terminate_process`. -/
def stop_server (env : Env) (st : ProxyState) : Except Exc ProxyState :=
  match env.remoteShutdown st._server with
  | .ok _ => _terminate_process env st
  | .error _ => _terminate_process env st

/-- The attribute state built by `Proxy.__init__` before connecting
(proxy.py 119-127). -/
def initState (package : Option String) (url : String) (port : Nat) : ProxyState :=
  { _process := none, _server := none, _profile := none,
    _package := package, _url := url, _port := port }

/-- `Proxy.__init__` (proxy.py 119-131): try to reconnect, and only when that
yields no connection start a new server. -/
def Proxy.init (env : Env) (package : Option String) (url : String) (port : Nat) :
    Except Exc ProxyState :=
  let st := initState package url port
  match try_reconnect env st with
  | some server => .ok { st with _server := some server }
  | none => start_server env st

/-- Python truthiness of a decoded JSON value (`if result['error']:`). -/
def Json.truthy : Json → Bool
  | .null => false
  | .bool b => b
  | .num n => decide (n ≠ 0)
  | .str s => decide (s ≠ "")
  | .arr items => decide (items ≠ .nil)
  | .obj fields => decide (fields ≠ .nil)

/-- Python dict lookup on a decoded document: `json.loads` keeps the last
occurrence of a duplicated key. -/
def JObj.lookupLast : JObj → String → Option Json
  | .nil, _ => none
  | .cons k v tl, key =>
    match JObj.lookupLast tl key with
    | some r => some r
    | none => if k = key then some v else none

/-- `result[key]` on a decoded response; a missing key or a non-mapping
document raises, modelled as `none`. -/
def Json.getField : Json → String → Option Json
  | .obj fields, k => JObj.lookupLast fields k
  | _, _ => none

/-- The call envelope `idict = {'args': args, 'kwargs': kwargs}` built by
`Proxy.proxy` (proxy.py 269). -/
def callEnvelope (args : JArr) (kwargs : JObj) : Json :=
  .obj (.cons "args" (.arr args) (.cons "kwargs" (.obj kwargs) .nil))

/-- The response handling of `Proxy.proxy` after the transport call
(proxy.py 278-288): empty output raises; a truthy `error` field raises with
that message; otherwise the `profile` field is recorded and `data` returned. -/
def handleResponse (st : ProxyState) (ostring : String) : ProxyState × Except Exc Json :=
  if ostring = "" then
    (st, .error (.rpcServerError (.str "No output was generated.")))
  else
    match Json.parse ostring with
    | none => (st, .error .jsonDecodeError)
    | some result =>
      match result.getField "error" with
      | none => (st, .error (.keyError "error"))
      | some err =>
        if err.truthy then (st, .error (.rpcServerError err))
        else
          match result.getField "profile" with
          | none => (st, .error (.keyError "profile"))
          | some prof =>
            match result.getField "data" with
            | none => ({ st with _profile := some prof }, .error (.keyError "data"))
            | some data => ({ st with _profile := some prof }, .ok data)

/-- `Proxy.proxy` (proxy.py 247-288): serialize the call envelope, send it;
on a transport exception run `stop_server` and re-raise; otherwise handle the
response envelope. -/
def proxy (env : Env) (st : ProxyState) (args : JArr) (kwargs : JObj) :
    ProxyState × Except Exc Json :=
  let istring := Json.render (callEnvelope args kwargs)
  match env.call istring with
  | .error e =>
    let st1 := match stop_server env st with
      | .ok s => s
      | .error _ => st
    (st1, .error e)
  | .ok ostring => handleResponse st ostring

/-! ## The Blender network artist (src/compas_blender/artists/networkartist.py)

The Blender scene API (`compas_blender.draw_points` / `draw_lines` /
`draw_texts`) is opaque: each draw method is modelled as returning the list
of descriptors it hands to those primitives. -/

/-- A location in model space (opaque to the claims). -/
abbrev Pt := Int × Int × Int

/-- An rgb colour value. -/
abbrev Color := Rat × Rat × Rat

/-- The network data structure the artist reads. -/
structure BNetwork where
  name : String
  nodeList : List Nat
  edgeList : List (Nat × Nat)
  xyz : Nat → Pt

/-- The artist's attributes.  Modelled from the spec: the base-class
accessors (`compas.artists.NetworkArtist`, not under src/) keep the caller's
node/edge selections, `None` meaning every node/edge is drawn, and the colour
attributes store the value assigned to them. -/
structure NetworkArtist where
  network : BNetwork
  _nodes : Option (List Nat)
  _edges : Option (List (Nat × Nat))
  node_color : Option (List (Nat × Color))
  edge_color : Option (List ((Nat × Nat) × Color))
  default_nodecolor : Color
  default_edgecolor : Color

/-- Modelled from the spec: the `nodes` selection accessor of the base
artist (not under src/) — the stored selection, defaulting to all nodes of
the network ("Default is None, in which case all nodes are drawn"). -/
def NetworkArtist.nodes (a : NetworkArtist) : List Nat :=
  a._nodes.getD a.network.nodeList

/-- Modelled from the spec: the `edges` selection accessor of the base
artist (not under src/) — the stored selection, defaulting to all edges. -/
def NetworkArtist.edges (a : NetworkArtist) : List (Nat × Nat) :=
  a._edges.getD a.network.edgeList

/-- Modelled from the spec: `node_xyz` (base artist, not under src/)
resolves a node's location. -/
def NetworkArtist.node_xyz (a : NetworkArtist) (node : Nat) : Pt :=
  a.network.xyz node

/-- Python `arg or stored` on a selection: `None` and the empty list are
falsy and fall back to the stored selection. -/
def pySelect (arg : Option (List α)) (stored : List α) : List α :=
  match arg with
  | none => stored
  | some l => if l.isEmpty then stored else l

/-- `spec.get(key, default)` on the stored colour attribute; calling `.get`
on `None` raises `AttributeError`. -/
def colorGet [BEq κ] (spec : Option (List (κ × Color))) (key : κ)
    (default : Color) : Except Exc Color :=
  match spec with
  | none => .error (.other 0)
  | some d => .ok ((d.lookup key).getD default)

/-- The point descriptor handed to `compas_blender.draw_points`. -/
structure PointDescr where
  pos : Pt
  name : String
  color : Color
  radius : Rat
  deriving DecidableEq

/-- The line descriptor handed to `compas_blender.draw_lines`. -/
structure LineDescr where
  startPos : Pt
  endPos : Pt
  color : Color
  name : String
  width : Rat
  deriving DecidableEq

/-- The text descriptor handed to `compas_blender.draw_texts`. -/
structure LabelDescr where
  pos : Pt
  name : String
  text : String
  color : Color
  deriving DecidableEq

/-- Build a descriptor per element, propagating the first raised exception
(the Python `for` loop stops there). -/
def buildList (f : α → Except Exc β) : List α → Except Exc (List β)
  | [] => .ok []
  | x :: xs => (f x).bind (fun y => (buildList f xs).map (fun ys => y :: ys))

/-- One element of the `points` list of `draw_nodes`
(networkartist.py 169-175). -/
def nodePoint (a : NetworkArtist) (spec : Option (List (Nat × Color))) (node : Nat) :
    Except Exc PointDescr :=
  (colorGet spec node a.default_nodecolor).map (fun col =>
    { pos := a.node_xyz node,
      name := a.network.name ++ ".node." ++ toString node,
      color := col,
      radius := (5 : Rat) / 100 })

/-- `NetworkArtist.draw_nodes` (networkartist.py 147-176): store the colour
argument, fall back to the stored selection on a falsy `nodes` argument, and
build one point per selected node. -/
def draw_nodes (a : NetworkArtist) (nodes : Option (List Nat))
    (color : Option (List (Nat × Color))) :
    NetworkArtist × Except Exc (List PointDescr) :=
  let a1 := { a with node_color := color }
  let ns := pySelect nodes a1.nodes
  (a1, buildList (nodePoint a1 a1.node_color) ns)

/-- One element of the `lines` list of `draw_edges`
(networkartist.py 200-207). -/
def edgeLine (a : NetworkArtist) (spec : Option (List ((Nat × Nat) × Color)))
    (edge : Nat × Nat) : Except Exc LineDescr :=
  (colorGet spec edge a.default_edgecolor).map (fun col =>
    { startPos := a.node_xyz edge.1,
      endPos := a.node_xyz edge.2,
      color := col,
      name := a.network.name ++ ".edge." ++ toString edge.1 ++ "-" ++ toString edge.2,
      width := (2 : Rat) / 100 })

/-- `NetworkArtist.draw_edges` (networkartist.py 178-208). -/
def draw_edges (a : NetworkArtist) (edges : Option (List (Nat × Nat)))
    (color : Option (List ((Nat × Nat) × Color))) :
    NetworkArtist × Except Exc (List LineDescr) :=
  let a1 := { a with edge_color := color }
  let es := pySelect edges a1.edges
  (a1, buildList (edgeLine a1 a1.edge_color) es)

/-- The `text` argument of `draw_nodelabels`: a string, a node-to-text
mapping, or any other (unsupported) value. -/
inductive TextSpec where
  | str (s : String)
  | dict (d : List (Nat × String))
  | other
  deriving DecidableEq

/-- Python truthiness of the `text` argument (`if not text`). -/
def textTruthy : Option TextSpec → Bool
  | none => false
  | some (.str s) => decide (s ≠ "")
  | some (.dict d) => decide (d ≠ [])
  | some .other => true

/-- Modelled from the spec: `color_to_colordict` (compas.utilities, not
under src/) resolves a colour specification to a per-key assignment with a
default. -/
def colordictFun (c : Option (List (Nat × Color))) (key : Nat) (default : Color) : Color :=
  match c with
  | none => default
  | some d => (d.lookup key).getD default

/-- `NetworkArtist.draw_nodelabels` (networkartist.py 210-246): falsy text or
`'key'` labels nodes of the selection with their key; `'index'` labels the
raw stored selection `self._nodes` with positions; a dict is used as given;
anything else raises `NotImplementedError`. -/
def draw_nodelabels (a : NetworkArtist) (text : Option TextSpec)
    (color : Option (List (Nat × Color))) : Except Exc (List LabelDescr) :=
  let node_text : Except Exc (List (Nat × String)) :=
    if textTruthy text = false ∨ text = some (.str "key") then
      .ok (a.nodes.map (fun vertex => (vertex, toString vertex)))
    else if text = some (.str "index") then
      match a._nodes with
      | none => .error (.other 1)
      | some ns => .ok ((List.enum ns).map (fun p => (p.2, toString p.1)))
    else
      match text with
      | some (.dict d) => .ok d
      | _ => .error .notImplementedError
  node_text.map (fun nt =>
    nt.map (fun p =>
      { pos := a.node_xyz p.1,
        name := a.network.name ++ ".nodelabel." ++ toString p.1,
        text := p.2,
        color := colordictFun color p.1 a.default_nodecolor }))

/-! ## Concrete instances used by the witnesses -/

/-- Did the operation succeed (no exception)? -/
def excOk (r : Except Exc Unit) : Bool :=
  match r with
  | .ok _ => true
  | .error _ => false

/-- An environment in which every external operation succeeds and each call
returns the empty string. -/
def envOkPing : Env :=
  { pingOnce := fun _ => .ok (), ping := fun _ => .ok (),
    spawn := { alive := true },
    remoteShutdown := fun _ => .ok (), terminate := fun _ => .ok (),
    kill := fun _ => .ok (),
    call := fun _ => .ok "" }

/-- An environment in which no listener answers the reconnect probe. -/
def envNoListener : Env := { envOkPing with pingOnce := fun _ => .error (.other 7) }

/-- An environment in which the transport call raises. -/
def envCallFail : Env := { envOkPing with call := fun _ => .error (.other 3) }

/-- An environment in which the server reports an execution error. -/
def envErrResp : Env :=
  { envOkPing with call := fun _ => .ok "\x7b\"error\": \"boom\"\x7d" }

/-- An environment in which the server reports an execution error while the
data field is also populated. -/
def envErrDataResp : Env :=
  { envOkPing with call := fun _ => .ok "\x7b\"error\": \"boom\", \"data\": 5\x7d" }

/-- An environment in which every shutdown-path operation raises. -/
def envAllFail : Env :=
  { envOkPing with
    remoteShutdown := fun _ => .error (.other 1),
    terminate := fun _ => .error (.other 2), kill := fun _ => .error (.other 4) }

/-- An environment in which the server answers with data and a profile. -/
def envDataResp : Env :=
  { envOkPing with
    call := fun _ => .ok "\x7b\"error\": null, \"data\": 5, \"profile\": \"p\"\x7d" }

/-- The proxy state after `__init__` reused an existing server: the server
is connected, no process was spawned. -/
def reconnectedState (package : Option String) (url : String) (port : Nat) : ProxyState :=
  let st := initState package url port
  { st with _server := some st.address }

/-- A freshly initialised proxy state on the default address. -/
def demoState : ProxyState := initState none "http://127.0.0.1" 1753

/-- A proxy state owning a live process, with a recorded profile. -/
def demoStateLive : ProxyState :=
  { demoState with
    _process := some { alive := true },
    _server := some demoState.address, _profile := some (.str "old") }

/-- A small three-node network. -/
def demoNetwork : BNetwork :=
  { name := "net", nodeList := [7, 8, 9], edgeList := [(7, 8), (8, 9)],
    xyz := fun n => ((n : Int), 0, 0) }

/-- An artist whose node selection holds the three nodes of `demoNetwork`. -/
def demoArtist : NetworkArtist :=
  { network := demoNetwork, _nodes := some [7, 8, 9], _edges := some [(7, 8), (8, 9)],
    node_color := none, edge_color := none,
    default_nodecolor := (1, 1, 1), default_edgecolor := (0, 0, 0) }

/-- An artist with no stored selection (everything is drawn). -/
def demoArtistAll : NetworkArtist := { demoArtist with _nodes := none, _edges := none }

end Compas

namespace Compas

/-! ## Round-trip correctness of the JSON codec -/

theorem renderNatGo_fuel (n : Nat) : ∀ fuel fuel', n ≤ fuel → n ≤ fuel' →
    renderNatGo fuel n = renderNatGo fuel' n := by
  induction n using Nat.strong_induction_on with
  | _ n ih =>
    intro fuel fuel' h h'
    by_cases h10 : n < 10
    · cases fuel <;> cases fuel' <;> simp [renderNatGo, h10]
    · have hdiv : n / 10 < n := Nat.div_lt_self (by omega) (by omega)
      cases fuel with
      | zero => omega
      | succ f =>
        cases fuel' with
        | zero => omega
        | succ f' =>
          simp only [renderNatGo, if_neg h10]
          rw [ih (n / 10) hdiv f f' (by omega) (by omega)]

theorem renderNat_lt {n : Nat} (h : n < 10) : renderNat n = [digitChar n] := by
  cases n with
  | zero => rfl
  | succ m => simp [renderNat, renderNatGo, h]

theorem renderNat_ge {n : Nat} (h : 10 ≤ n) :
    renderNat n = renderNat (n / 10) ++ [digitChar (n % 10)] := by
  have hdiv : n / 10 < n := Nat.div_lt_self (by omega) (by omega)
  cases n with
  | zero => omega
  | succ m =>
    show renderNatGo (m + 1) (m + 1) = _
    simp only [renderNatGo, if_neg (by omega : ¬ m + 1 < 10)]
    rw [renderNatGo_fuel ((m + 1) / 10) m ((m + 1) / 10) (by omega) (by omega)]
    rfl

theorem digitVal_digitChar {d : Nat} (h : d < 10) : digitVal (digitChar d) = d := by
  interval_cases d <;> decide

theorem isDigitCh_digitChar (d : Nat) : isDigitCh (digitChar d) = true := by
  rcases d with _ | _ | _ | _ | _ | _ | _ | _ | _ | d <;> rfl

theorem renderNat_ne_nil (n : Nat) : renderNat n ≠ [] := by
  by_cases h : n < 10
  · rw [renderNat_lt h]; simp
  · rw [renderNat_ge (by omega)]; simp

theorem renderNat_digits (n : Nat) : ∀ c ∈ renderNat n, isDigitCh c = true := by
  induction n using Nat.strong_induction_on with
  | _ n ih =>
    by_cases h : n < 10
    · rw [renderNat_lt h]
      intro c hc
      simp only [List.mem_singleton] at hc
      subst hc
      exact isDigitCh_digitChar n
    · rw [renderNat_ge (by omega)]
      intro c hc
      rcases List.mem_append.mp hc with hl | hr
      · exact ih (n / 10) (Nat.div_lt_self (by omega) (by omega)) c hl
      · simp only [List.mem_singleton] at hr
        subst hr
        exact isDigitCh_digitChar (n % 10)

theorem parseDigitsAux_append (ds : List Char) (h : ∀ c ∈ ds, isDigitCh c = true)
    (rest : List Char) (hr : leadDigit rest = false) (acc : Nat) :
    parseDigitsAux (ds ++ rest) acc = (digitsVal ds acc, rest) := by
  induction ds generalizing acc with
  | nil =>
    cases rest with
    | nil => rfl
    | cons c r =>
      simp only [leadDigit] at hr
      simp [parseDigitsAux, digitsVal, hr]
  | cons c t iht =>
    have hc : isDigitCh c = true := h c (by simp)
    simp only [List.cons_append, parseDigitsAux, hc, if_pos, List.append_eq]
    rw [iht (fun x hx => h x (by simp [hx]))]
    rfl

theorem digitsVal_renderNat (n : Nat) : ∀ acc,
    digitsVal (renderNat n) acc = acc * 10 ^ (renderNat n).length + n := by
  induction n using Nat.strong_induction_on with
  | _ n ih =>
    intro acc
    by_cases h : n < 10
    · rw [renderNat_lt h]
      simp [digitsVal, digitVal_digitChar h]
    · rw [renderNat_ge (by omega)]
      have hdiv : n / 10 < n := Nat.div_lt_self (by omega) (by omega)
      simp only [digitsVal, List.foldl_append, List.foldl_cons, List.foldl_nil]
      rw [show List.foldl (fun a c => a * 10 + digitVal c) acc (renderNat (n / 10)) =
            digitsVal (renderNat (n / 10)) acc from rfl,
          ih (n / 10) hdiv acc, digitVal_digitChar (by omega : n % 10 < 10)]
      rw [List.length_append, List.length_singleton]
      calc (acc * 10 ^ (renderNat (n / 10)).length + n / 10) * 10 + n % 10
          = acc * (10 ^ (renderNat (n / 10)).length * 10) + (10 * (n / 10) + n % 10) := by
            ring
        _ = acc * 10 ^ ((renderNat (n / 10)).length + 1) + n := by
            rw [Nat.div_add_mod, pow_succ]

theorem parseStrBody_escape (s : List Char) (rest : List Char) :
    parseStrBody (escapeChars s ++ ('"' :: rest)) = some (s, rest) := by
  induction s with
  | nil => simp [escapeChars, parseStrBody]
  | cons c t iht =>
    by_cases hesc : c = '"' ∨ c = '\\'
    · simp only [escapeChars, if_pos hesc, List.cons_append, parseStrBody, parseStrEsc,
        if_neg (by decide : ¬ ('\\' : Char) = '"'), if_pos (rfl : ('\\' : Char) = '\\'),
        if_pos hesc, iht, Option.map_some', if_true]
    · push_neg at hesc
      simp only [escapeChars, if_neg (not_or.mpr hesc), List.cons_append,
        parseStrBody, if_neg hesc.1, if_neg hesc.2, iht, Option.map_some']

theorem renderJson_head (v : Json) : ∃ c cs, renderJson v = c :: cs ∧ c ≠ ']' := by
  cases v with
  | null => exact ⟨'n', _, rfl, by decide⟩
  | bool b => cases b
              · exact ⟨'f', _, rfl, by decide⟩
              · exact ⟨'t', _, rfl, by decide⟩
  | num n =>
    show ∃ c cs, renderInt n = c :: cs ∧ c ≠ ']'
    unfold renderInt
    by_cases hn : n < 0
    · exact ⟨'-', _, by rw [if_pos hn], by decide⟩
    · rw [if_neg hn]
      obtain ⟨c, cs, hccs⟩ := List.exists_cons_of_ne_nil (renderNat_ne_nil n.toNat)
      refine ⟨c, cs, hccs, fun hcontra => ?_⟩
      have : isDigitCh c = true := renderNat_digits n.toNat c (by rw [hccs]; simp)
      rw [hcontra] at this
      exact absurd this (by decide)
  | str s => exact ⟨'"', _, rfl, by decide⟩
  | arr items => exact ⟨'[', _, rfl, by decide⟩
  | obj fields => exact ⟨'\x7b', _, rfl, by decide⟩

theorem leadDigit_renderArrSep (tl : JArr) (rest : List Char) :
    leadDigit (renderArrSep tl ++ rest) = false := by
  cases tl <;> simp [renderArrSep, leadDigit, isDigitCh]

theorem leadDigit_renderObjSep (tl : JObj) (rest : List Char) :
    leadDigit (renderObjSep tl ++ rest) = false := by
  cases tl <;> simp [renderObjSep, leadDigit, isDigitCh]

theorem parseValue_digitHead (fuel : Nat) (c : Char) (rest : List Char)
    (hc : isDigitCh c = true) :
    parseValue (fuel + 1) (c :: rest) =
      some (.num ((parseDigitsAux rest (digitVal c)).1 : Int),
            (parseDigitsAux rest (digitVal c)).2) := by
  have h1 : ¬ c = 'n' := fun h => by rw [h] at hc; exact absurd hc (by decide)
  have h2 : ¬ c = 't' := fun h => by rw [h] at hc; exact absurd hc (by decide)
  have h3 : ¬ c = 'f' := fun h => by rw [h] at hc; exact absurd hc (by decide)
  have h4 : ¬ c = '"' := fun h => by rw [h] at hc; exact absurd hc (by decide)
  have h5 : ¬ c = '[' := fun h => by rw [h] at hc; exact absurd hc (by decide)
  have h6 : ¬ c = '\x7b' := fun h => by rw [h] at hc; exact absurd hc (by decide)
  have h7 : ¬ c = '-' := fun h => by rw [h] at hc; exact absurd hc (by decide)
  simp only [parseValue, if_neg h1, if_neg h2, if_neg h3, if_neg h4, if_neg h5, if_neg h6,
    if_neg h7, if_pos hc]

theorem parseValue_negHead (fuel : Nat) (c2 : Char) (rest : List Char)
    (hc : isDigitCh c2 = true) :
    parseValue (fuel + 1) ('-' :: c2 :: rest) =
      some (.num (-((parseDigitsAux rest (digitVal c2)).1 : Int)),
            (parseDigitsAux rest (digitVal c2)).2) := by
  simp [parseValue, parseNeg, hc]

theorem digitsVal_cons0 (c : Char) (cs : List Char) :
    digitsVal (c :: cs) 0 = digitsVal cs (digitVal c) := by
  simp [digitsVal]

mutual
theorem roundTripValue (v : Json) : ∀ (fuel : Nat) (rest : List Char),
    leadDigit rest = false →
    parseValue (jsize v + fuel) (renderJson v ++ rest) = some (v, rest) := by
  cases v with
  | null =>
    intro fuel rest _
    have hsz : jsize .null + fuel = fuel + 1 := by simp only [jsize]; omega
    rw [hsz]
    simp [renderJson, nullChars, parseValue, expectChars]
  | bool b =>
    intro fuel rest _
    have hsz : jsize (.bool b) + fuel = fuel + 1 := by simp only [jsize]; omega
    rw [hsz]
    cases b <;> simp [renderJson, trueChars, falseChars, parseValue, expectChars]
  | num n =>
    intro fuel rest hr
    have hsz : jsize (.num n) + fuel = fuel + 1 := by simp only [jsize]; omega
    rw [hsz]
    simp only [renderJson]
    by_cases hn : n < 0
    · simp only [renderInt, if_pos hn]
      obtain ⟨c, cs, hc⟩ := List.exists_cons_of_ne_nil (renderNat_ne_nil (-n).toNat)
      have hcd : isDigitCh c = true := renderNat_digits _ c (by rw [hc]; simp)
      have hcs : ∀ x ∈ cs, isDigitCh x = true := fun x hx =>
        renderNat_digits _ x (by rw [hc]; exact List.mem_cons_of_mem _ hx)
      rw [hc, List.cons_append, List.cons_append,
          parseValue_negHead fuel c (cs ++ rest) hcd,
          parseDigitsAux_append cs hcs rest hr (digitVal c)]
      have hval : digitsVal cs (digitVal c) = (-n).toNat := by
        rw [← digitsVal_cons0, ← hc, digitsVal_renderNat]
        simp
      have hval2 : -((digitsVal cs (digitVal c) : Nat) : Int) = n := by
        rw [hval, Int.toNat_of_nonneg (by omega : (0 : Int) ≤ -n)]
        simp
      simp [hval2]
    · simp only [renderInt, if_neg hn]
      obtain ⟨c, cs, hc⟩ := List.exists_cons_of_ne_nil (renderNat_ne_nil n.toNat)
      have hcd : isDigitCh c = true := renderNat_digits _ c (by rw [hc]; simp)
      have hcs : ∀ x ∈ cs, isDigitCh x = true := fun x hx =>
        renderNat_digits _ x (by rw [hc]; exact List.mem_cons_of_mem _ hx)
      rw [hc, List.cons_append,
          parseValue_digitHead fuel c (cs ++ rest) hcd,
          parseDigitsAux_append cs hcs rest hr (digitVal c)]
      have hval2 : ((digitsVal cs (digitVal c) : Nat) : Int) = n := by
        rw [← digitsVal_cons0, ← hc, digitsVal_renderNat]
        simp
        omega
      simp [hval2]
  | str s =>
    intro fuel rest _
    have hsz : jsize (.str s) + fuel = fuel + 1 := by simp only [jsize]; omega
    rw [hsz]
    obtain ⟨sd⟩ := s
    simp only [renderJson, String.data, List.cons_append, List.append_assoc,
      List.singleton_append]
    simp [parseValue, parseStrBody_escape]
  | arr items =>
    intro fuel rest _
    have hsz : jsize (.arr items) + fuel = (asize items + fuel) + 1 := by
      simp only [jsize]; omega
    rw [hsz]
    simp only [renderJson, List.cons_append]
    simp [parseValue, roundTripArrItems items fuel rest]
  | obj fields =>
    intro fuel rest _
    have hsz : jsize (.obj fields) + fuel = (osize fields + fuel) + 1 := by
      simp only [jsize]; omega
    rw [hsz]
    simp only [renderJson, List.cons_append]
    simp [parseValue, roundTripObjItems fields fuel rest]

theorem roundTripArrItems (xs : JArr) : ∀ (fuel : Nat) (rest : List Char),
    parseArrItems (asize xs + fuel) (renderArrItems xs ++ rest) = some (xs, rest) := by
  cases xs with
  | nil =>
    intro fuel rest
    have hsz : asize .nil + fuel = fuel + 1 := by simp only [asize]; omega
    rw [hsz]
    simp [renderArrItems, parseArrItems]
  | cons hd tl =>
    intro fuel rest
    have hsz : asize (.cons hd tl) + fuel = (jsize hd + asize tl + fuel) + 1 := by
      simp only [asize]; omega
    rw [hsz]
    obtain ⟨c, cs, hc, hcne⟩ := renderJson_head hd
    have hinput : renderArrItems (JArr.cons hd tl) ++ rest
        = c :: (cs ++ (renderArrSep tl ++ rest)) := by
      simp [renderArrItems, hc, List.append_assoc]
    rw [hinput]
    simp only [parseArrItems, if_neg hcne]
    have hback : c :: (cs ++ (renderArrSep tl ++ rest))
        = renderJson hd ++ (renderArrSep tl ++ rest) := by
      rw [hc, List.cons_append]
    rw [hback]
    rw [(by omega : jsize hd + asize tl + fuel = jsize hd + (asize tl + fuel)),
        roundTripValue hd (asize tl + fuel) (renderArrSep tl ++ rest)
          (leadDigit_renderArrSep tl rest)]
    rw [(by omega : jsize hd + (asize tl + fuel) = asize tl + (jsize hd + fuel))]
    simp [roundTripArrSep tl (jsize hd + fuel) rest]

theorem roundTripArrSep (xs : JArr) : ∀ (fuel : Nat) (rest : List Char),
    parseArrSep (asize xs + fuel) (renderArrSep xs ++ rest) = some (xs, rest) := by
  cases xs with
  | nil =>
    intro fuel rest
    have hsz : asize .nil + fuel = fuel + 1 := by simp only [asize]; omega
    rw [hsz]
    simp [renderArrSep, parseArrSep]
  | cons hd tl =>
    intro fuel rest
    have hsz : asize (.cons hd tl) + fuel = (jsize hd + asize tl + fuel) + 1 := by
      simp only [asize]; omega
    rw [hsz]
    simp only [renderArrSep, List.cons_append, List.append_assoc]
    simp [parseArrSep, expectChars]
    rw [(by omega : jsize hd + asize tl + fuel = jsize hd + (asize tl + fuel))]
    rw [roundTripValue hd (asize tl + fuel) (renderArrSep tl ++ rest)
          (leadDigit_renderArrSep tl rest)]
    rw [(by omega : jsize hd + (asize tl + fuel) = asize tl + (jsize hd + fuel))]
    simp [roundTripArrSep tl (jsize hd + fuel) rest]

theorem roundTripObjItems (fs : JObj) : ∀ (fuel : Nat) (rest : List Char),
    parseObjItems (osize fs + fuel) (renderObjItems fs ++ rest) = some (fs, rest) := by
  cases fs with
  | nil =>
    intro fuel rest
    have hsz : osize .nil + fuel = fuel + 1 := by simp only [osize]; omega
    rw [hsz]
    simp [renderObjItems, parseObjItems]
  | cons k v tl =>
    intro fuel rest
    have hsz : osize (.cons k v tl) + fuel = (jsize v + osize tl + fuel) + 1 := by
      simp only [osize]; omega
    rw [hsz]
    obtain ⟨kd⟩ := k
    simp only [renderObjItems, String.data, List.cons_append, List.append_assoc]
    simp [parseObjItems, expectChars,
      parseStrBody_escape kd (':' :: ' ' :: (renderJson v ++ (renderObjSep tl ++ rest)))]
    rw [(by omega : jsize v + osize tl + fuel = jsize v + (osize tl + fuel))]
    rw [roundTripValue v (osize tl + fuel) (renderObjSep tl ++ rest)
          (leadDigit_renderObjSep tl rest)]
    rw [(by omega : jsize v + (osize tl + fuel) = osize tl + (jsize v + fuel))]
    simp [roundTripObjSep tl (jsize v + fuel) rest]

theorem roundTripObjSep (fs : JObj) : ∀ (fuel : Nat) (rest : List Char),
    parseObjSep (osize fs + fuel) (renderObjSep fs ++ rest) = some (fs, rest) := by
  cases fs with
  | nil =>
    intro fuel rest
    have hsz : osize .nil + fuel = fuel + 1 := by simp only [osize]; omega
    rw [hsz]
    simp [renderObjSep, parseObjSep]
  | cons k v tl =>
    intro fuel rest
    have hsz : osize (.cons k v tl) + fuel = (jsize v + osize tl + fuel) + 1 := by
      simp only [osize]; omega
    rw [hsz]
    obtain ⟨kd⟩ := k
    simp only [renderObjSep, String.data, List.cons_append, List.append_assoc]
    simp [parseObjSep, expectChars,
      parseStrBody_escape kd (':' :: ' ' :: (renderJson v ++ (renderObjSep tl ++ rest)))]
    rw [(by omega : jsize v + osize tl + fuel = jsize v + (osize tl + fuel))]
    rw [roundTripValue v (osize tl + fuel) (renderObjSep tl ++ rest)
          (leadDigit_renderObjSep tl rest)]
    rw [(by omega : jsize v + (osize tl + fuel) = osize tl + (jsize v + fuel))]
    simp [roundTripObjSep tl (jsize v + fuel) rest]
end

theorem renderInt_ne_nil (n : Int) : renderInt n ≠ [] := by
  simp only [renderInt]
  by_cases h : n < 0
  · rw [if_pos h]; simp
  · rw [if_neg h]; exact renderNat_ne_nil _

mutual
theorem jsize_le (v : Json) : jsize v ≤ 2 * (renderJson v).length := by
  cases v with
  | null => simp [jsize, renderJson, nullChars]
  | bool b =>
    cases b <;> simp only [jsize, renderJson, trueChars, falseChars, List.length_cons, List.length_nil] <;> omega
  | num n =>
    have h : 1 ≤ (renderInt n).length := List.length_pos.mpr (renderInt_ne_nil n)
    simp only [jsize, renderJson]
    omega
  | str s =>
    simp only [jsize, renderJson, List.length_cons, List.length_append]
    omega
  | arr items =>
    have h := asize_le_items items
    simp only [jsize, renderJson, List.length_cons]
    omega
  | obj fields =>
    have h := osize_le_items fields
    simp only [jsize, renderJson, List.length_cons]
    omega

theorem asize_le_items (xs : JArr) : asize xs ≤ 2 * (renderArrItems xs).length := by
  cases xs with
  | nil => simp [asize, renderArrItems]
  | cons hd tl =>
    have h1 := jsize_le hd
    have h2 := asize_le_sep tl
    simp only [asize, renderArrItems, List.length_append]
    omega

theorem asize_le_sep (xs : JArr) : asize xs + 1 ≤ 2 * (renderArrSep xs).length := by
  cases xs with
  | nil => simp [asize, renderArrSep]
  | cons hd tl =>
    have h1 := jsize_le hd
    have h2 := asize_le_sep tl
    simp only [asize, renderArrSep, List.length_cons, List.length_append]
    omega

theorem osize_le_items (fs : JObj) : osize fs ≤ 2 * (renderObjItems fs).length := by
  cases fs with
  | nil => simp [osize, renderObjItems]
  | cons k v tl =>
    have h1 := jsize_le v
    have h2 := osize_le_sep tl
    simp only [osize, renderObjItems, List.length_cons, List.length_append]
    omega

theorem osize_le_sep (fs : JObj) : osize fs + 1 ≤ 2 * (renderObjSep fs).length := by
  cases fs with
  | nil => simp [osize, renderObjSep]
  | cons k v tl =>
    have h1 := jsize_le v
    have h2 := osize_le_sep tl
    simp only [osize, renderObjSep, List.length_cons, List.length_append]
    omega
end

/-- Parsing a rendered JSON text returns exactly the rendered value. -/
theorem Json.parse_render (v : Json) : Json.parse (Json.render v) = some v := by
  have hle : jsize v ≤ 2 * (renderJson v).length := jsize_le v
  show (parseValue (2 * (renderJson v).length) (renderJson v)).bind
    (fun p => if p.2 = [] then some p.1 else none) = some v
  rw [(by omega : 2 * (renderJson v).length
        = jsize v + (2 * (renderJson v).length - jsize v))]
  have hrt := roundTripValue v (2 * (renderJson v).length - jsize v) [] rfl
  rw [List.append_nil] at hrt
  rw [hrt]
  simp

end Compas


namespace Compas

/-! ## Supporting lemmas for the claims -/

theorem pollLoop_true_iff (ping : Nat → Except Exc Unit) :
    ∀ (count i : Nat),
      pollLoop ping i count = true ↔ ∃ j, j < count ∧ excOk (ping (i + j)) = true := by
  intro count
  induction count with
  | zero => intro i; simp [pollLoop]
  | succ c ih =>
    intro i
    simp only [pollLoop]
    cases hp : ping i with
    | ok u =>
      simp only [true_iff]
      exact ⟨0, by omega, by simp [hp, excOk]⟩
    | error e =>
      rw [ih (i + 1)]
      constructor
      · rintro ⟨j, hj, hok⟩
        exact ⟨j + 1, by omega, by rw [(by omega : i + (j + 1) = i + 1 + j)]; exact hok⟩
      · rintro ⟨j, hj, hok⟩
        cases j with
        | zero =>
          rw [Nat.add_zero, hp] at hok
          simp [excOk] at hok
        | succ j0 =>
          exact ⟨j0, by omega, by rw [(by omega : i + 1 + j0 = i + (j0 + 1))]; exact hok⟩

theorem pollLoop_congr (ping ping' : Nat → Except Exc Unit) :
    ∀ (count i : Nat), (∀ j, j < count → ping (i + j) = ping' (i + j)) →
      pollLoop ping i count = pollLoop ping' i count := by
  intro count
  induction count with
  | zero => intro i _; rfl
  | succ c ih =>
    intro i h
    have h0 : ping i = ping' i := by
      have := h 0 (by omega)
      rwa [Nat.add_zero] at this
    simp only [pollLoop, h0]
    cases ping' i with
    | ok u => rfl
    | error e =>
      exact ih (i + 1) (fun j hj => by
        have := h (j + 1) (by omega)
        rwa [(by omega : i + (j + 1) = i + 1 + j)] at this)

theorem terminate_process_ok (env : Env) (st : ProxyState) :
    ∃ st1, _terminate_process env st = .ok st1 := by
  cases hp : st._process with
  | none => exact ⟨st, by simp [_terminate_process, hp]⟩
  | some p =>
    simp only [_terminate_process, hp]
    exact ⟨_, rfl⟩

theorem stop_server_ok (env : Env) (st : ProxyState) :
    ∃ st1, stop_server env st = .ok st1 := by
  obtain ⟨st1, h1⟩ := terminate_process_ok env st
  cases hr : env.remoteShutdown st._server with
  | ok u => exact ⟨st1, by simp [stop_server, hr, h1]⟩
  | error e => exact ⟨st1, by simp [stop_server, hr, h1]⟩

theorem Json.parse_empty : Json.parse "" = none := rfl

theorem buildList_ok (f : α → Except Exc β) (g : α → β) (h : ∀ x, f x = .ok (g x)) :
    ∀ l, buildList f l = .ok (l.map g) := by
  intro l
  induction l with
  | nil => rfl
  | cons x xs ih => simp [buildList, h x, ih, Except.bind, Except.map]

end Compas

namespace Compas

/-! ## The claims -/

/-- C2: `Proxy.start_server` performs at most 100 ping attempts (the loop
outcome depends only on the first 100 pings) and terminates; if a ping among
the first 100 succeeds the method returns the connected server, and if all
100 attempts fail it raises the server-unavailable `RPCServerError`. -/
theorem start_server_spec (env : Env) (st : ProxyState) :
    ((∃ i, i < 100 ∧ excOk (env.ping i) = true) →
      start_server env st =
        .ok { st with _process := some env.spawn, _server := some st.address }) ∧
    ((∀ i, i < 100 → excOk (env.ping i) = false) →
      start_server env st =
        .error (.rpcServerError (.str "The server is no available."))) ∧
    (∀ ping ping' : Nat → Except Exc Unit, (∀ i, i < 100 → ping i = ping' i) →
      pollLoop ping 0 100 = pollLoop ping' 0 100) := by
  refine ⟨?_, ?_, ?_⟩
  · rintro ⟨i, hi, hok⟩
    have hpoll : pollLoop env.ping 0 100 = true := by
      rw [pollLoop_true_iff]
      exact ⟨i, hi, by simpa using hok⟩
    simp [start_server, hpoll, ProxyState.address]
  · intro hall
    have hpoll : pollLoop env.ping 0 100 = false := by
      cases hfb : pollLoop env.ping 0 100 with
      | false => rfl
      | true =>
        obtain ⟨j, hj, hok⟩ := (pollLoop_true_iff env.ping 100 0).mp hfb
        rw [Nat.zero_add] at hok
        rw [hall j hj] at hok
        simp at hok
    simp [start_server, hpoll]
  · exact fun ping ping' h =>
      pollLoop_congr ping ping' 100 0 (fun j hj => by simpa using h j hj)

/-- Witness for C2 at an environment whose first ping already succeeds. -/
theorem start_server_spec_witness :
    (∃ i, i < 100 ∧ excOk (envOkPing.ping i) = true) ∧
    start_server envOkPing demoState =
      .ok { demoState with
            _process := some envOkPing.spawn,
            _server := some demoState.address } := by
  have h : ∃ i, i < 100 ∧ excOk (envOkPing.ping i) = true := ⟨0, by decide, by decide⟩
  exact ⟨h, (start_server_spec envOkPing demoState).1 h⟩

/-- C5: `Proxy.try_reconnect` never raises: any exception from the liveness
probe is caught and yields no connection, while a successful probe yields the
connected server at the configured address. -/
theorem try_reconnect_spec (env : Env) (st : ProxyState) :
    (∀ e, env.pingOnce st.address = .error e → try_reconnect env st = none) ∧
    (∀ u, env.pingOnce st.address = .ok u → try_reconnect env st = some st.address) := by
  constructor
  · intro e he; simp [try_reconnect, he]
  · intro u hu; simp [try_reconnect, hu]

/-- Witness for C5: probing an address with no listener yields no
connection, not an exception. -/
theorem try_reconnect_spec_witness :
    try_reconnect envNoListener demoState = none :=
  (try_reconnect_spec envNoListener demoState).1 (.other 7) rfl

/-- C4: `Proxy.stop_server` never raises: remote-shutdown, terminate and
kill failures are all swallowed, it leaves a proxy that never spawned a
process unchanged, and a second call in a row never raises either. -/
theorem stop_server_spec (env : Env) (st : ProxyState) :
    (∃ st1, stop_server env st = .ok st1) ∧
    (st._process = none → stop_server env st = .ok st) ∧
    (∀ st1, stop_server env st = .ok st1 →
      ∀ env', ∃ st2, stop_server env' st1 = .ok st2) := by
  refine ⟨stop_server_ok env st, ?_, ?_⟩
  · intro hp
    cases hr : env.remoteShutdown st._server <;>
      simp [stop_server, hr, _terminate_process, hp]
  · intro st1 _ env'
    exact stop_server_ok env' st1

/-- Witness for C4: disposing a process-less proxy in an environment where
every shutdown-path operation raises. -/
theorem stop_server_spec_witness :
    demoState._process = none ∧
    stop_server envAllFail demoState = .ok demoState ∧
    (∃ st2, stop_server envAllFail demoState = .ok st2) :=
  ⟨rfl, (stop_server_spec envAllFail demoState).2.1 rfl,
    (stop_server_spec envAllFail demoState).1⟩

/-- C6: construction attempts reconnection first and spawns a process only
when reconnection yields no connection; after a successful reconnect the
process handle is `None` and the terminate/kill step of shutdown is a no-op. -/
theorem init_reconnect_spec (env : Env) (package : Option String) (url : String)
    (port : Nat) :
    (∀ u, env.pingOnce (initState package url port).address = .ok u →
      Proxy.init env package url port = .ok (reconnectedState package url port) ∧
      (reconnectedState package url port)._process = none ∧
      ∀ env', _terminate_process env' (reconnectedState package url port) =
        .ok (reconnectedState package url port)) ∧
    (try_reconnect env (initState package url port) = none →
      Proxy.init env package url port = start_server env (initState package url port) ∧
      ∀ stX, start_server env (initState package url port) = .ok stX →
        stX._process = some env.spawn) := by
  constructor
  · intro u hu
    have hre : try_reconnect env (initState package url port)
        = some (initState package url port).address := by
      simp [try_reconnect, hu]
    refine ⟨by simp [Proxy.init, hre, reconnectedState], rfl, ?_⟩
    intro env'
    simp [_terminate_process, reconnectedState, initState]
  · intro hre
    constructor
    · simp [Proxy.init, hre]
    · intro stX hX
      by_cases hp : pollLoop env.ping 0 100
      · simp [start_server, hp] at hX
        simp [← hX]
      · simp [start_server, hp] at hX

/-- Witness for C6: reconnection succeeds, the process handle stays `None`,
and terminating is a no-op. -/
theorem init_reconnect_spec_witness :
    Proxy.init envOkPing none "http://127.0.0.1" 1753 =
      .ok (reconnectedState none "http://127.0.0.1" 1753) ∧
    (reconnectedState none "http://127.0.0.1" 1753)._process = none ∧
    ∀ env', _terminate_process env' (reconnectedState none "http://127.0.0.1" 1753) =
      .ok (reconnectedState none "http://127.0.0.1" 1753) :=
  (init_reconnect_spec envOkPing none "http://127.0.0.1" 1753).1 () rfl

/-- C3: a transport-level exception during `Proxy.proxy` first runs the full
shutdown (`stop_server`) and then re-raises the original exception
unchanged. -/
theorem proxy_transport_failure (env : Env) (st : ProxyState) (args : JArr)
    (kwargs : JObj) (e : Exc)
    (h : env.call (Json.render (callEnvelope args kwargs)) = .error e) :
    ∃ st1, stop_server env st = .ok st1 ∧ proxy env st args kwargs = (st1, .error e) := by
  obtain ⟨st1, h1⟩ := stop_server_ok env st
  exact ⟨st1, h1, by simp [proxy, h, h1]⟩

/-- Witness for C3: a failing transport call tears down and re-raises the
same exception. -/
theorem proxy_transport_failure_witness :
    ∃ st1, stop_server envCallFail demoState = .ok st1 ∧
      proxy envCallFail demoState .nil .nil = (st1, .error (.other 3)) :=
  proxy_transport_failure envCallFail demoState .nil .nil (.other 3) rfl

/-- C1: classification of the deserialized response envelope by
`Proxy.proxy`: an empty response raises the empty-output `RPCServerError`; a
truthy `error` field raises an `RPCServerError` carrying exactly that
message, and the data field is not returned; only with a falsy `error` field
is the `profile` field recorded and the `data` field returned. -/
theorem proxy_response_classification (env : Env) (st : ProxyState) (args : JArr)
    (kwargs : JObj) (ostring : String)
    (h : env.call (Json.render (callEnvelope args kwargs)) = .ok ostring) :
    (ostring = "" →
      proxy env st args kwargs =
        (st, .error (.rpcServerError (.str "No output was generated.")))) ∧
    (∀ result err, Json.parse ostring = some result →
      result.getField "error" = some err → err.truthy = true →
      proxy env st args kwargs = (st, .error (.rpcServerError err))) ∧
    (∀ result err prof data, Json.parse ostring = some result →
      result.getField "error" = some err → err.truthy = false →
      result.getField "profile" = some prof → result.getField "data" = some data →
      proxy env st args kwargs = ({ st with _profile := some prof }, .ok data)) := by
  have hne : ∀ result : Json, Json.parse ostring = some result → ¬ ostring = "" := by
    intro result hp hcontra
    rw [hcontra, Json.parse_empty] at hp
    cases hp
  refine ⟨?_, ?_, ?_⟩
  · intro he
    simp [proxy, h, handleResponse, he]
  · intro result err hp hger htr
    simp [proxy, h, handleResponse, hne result hp, hp, hger, htr]
  · intro result err prof data hp hger htr hprof hdata
    simp [proxy, h, handleResponse, hne result hp, hp, hger, htr, hprof, hdata]

/-- Witness for C1: error takes precedence even though the data field is
populated, and the raised error carries exactly the reported message. -/
theorem proxy_response_classification_witness :
    proxy envErrDataResp demoState .nil .nil =
      (demoState, .error (.rpcServerError (.str "boom"))) :=
  (proxy_response_classification envErrDataResp demoState .nil .nil
      "\x7b\"error\": \"boom\", \"data\": 5\x7d" rfl).2.1
    (.obj (.cons "error" (.str "boom") (.cons "data" (.num 5) .nil)))
    (.str "boom") (by decide) (by decide) (by decide)

/-- C9: with a populated error field the proxy re-raises without teardown:
process handle, server connection and the previously recorded profile are
all unchanged. -/
theorem proxy_error_no_teardown (env : Env) (st : ProxyState) (args : JArr)
    (kwargs : JObj) (ostring : String) (result err : Json)
    (h : env.call (Json.render (callEnvelope args kwargs)) = .ok ostring)
    (hp : Json.parse ostring = some result)
    (hger : result.getField "error" = some err)
    (htr : err.truthy = true) :
    (proxy env st args kwargs).1._process = st._process ∧
    (proxy env st args kwargs).1._server = st._server ∧
    (proxy env st args kwargs).1._profile = st._profile ∧
    (proxy env st args kwargs).2 = .error (.rpcServerError err) := by
  have hne : ¬ ostring = "" := by
    intro hcontra
    rw [hcontra, Json.parse_empty] at hp
    cases hp
  simp [proxy, h, handleResponse, hne, hp, hger, htr]

/-- Witness for C9: the live process and the old profile survive a remote
execution error. -/
theorem proxy_error_no_teardown_witness :
    (proxy envErrDataResp demoStateLive .nil .nil).1._process = some { alive := true } ∧
    (proxy envErrDataResp demoStateLive .nil .nil).1._profile = some (.str "old") ∧
    (proxy envErrDataResp demoStateLive .nil .nil).2 =
      .error (.rpcServerError (.str "boom")) := by
  have h := proxy_error_no_teardown envErrDataResp demoStateLive .nil .nil
    "\x7b\"error\": \"boom\", \"data\": 5\x7d"
    (.obj (.cons "error" (.str "boom") (.cons "data" (.num 5) .nil)))
    (.str "boom") rfl (by decide) (by decide) (by decide)
  refine ⟨?_, ?_, h.2.2.2⟩
  · rw [h.1]; decide
  · rw [h.2.2.1]; decide

/-- C7: serializing the `args`/`kwargs` call envelope to its JSON text form
and deserializing it back yields the same value, for every argument
structure. -/
theorem callEnvelope_roundTrip (args : JArr) (kwargs : JObj) :
    Json.parse (Json.render (callEnvelope args kwargs)) = some (callEnvelope args kwargs) :=
  Json.parse_render (callEnvelope args kwargs)

/-- C8: `draw_nodelabels` with `text="index"` on a three-node selection
labels each node with its position ("0", "1", "2"), not its identifier, and
unsupported text shapes raise `NotImplementedError`. -/
theorem draw_nodelabels_index_spec (a : NetworkArtist) (n1 n2 n3 : Nat)
    (color : Option (List (Nat × Color))) (h : a._nodes = some [n1, n2, n3]) :
    draw_nodelabels a (some (.str "index")) color =
      .ok [{ pos := a.node_xyz n1,
             name := a.network.name ++ ".nodelabel." ++ toString n1,
             text := "0", color := colordictFun color n1 a.default_nodecolor },
           { pos := a.node_xyz n2,
             name := a.network.name ++ ".nodelabel." ++ toString n2,
             text := "1", color := colordictFun color n2 a.default_nodecolor },
           { pos := a.node_xyz n3,
             name := a.network.name ++ ".nodelabel." ++ toString n3,
             text := "2", color := colordictFun color n3 a.default_nodecolor }] ∧
    (∀ s, s ≠ "" → s ≠ "key" → s ≠ "index" →
      draw_nodelabels a (some (.str s)) color = .error .notImplementedError) ∧
    draw_nodelabels a (some .other) color = .error .notImplementedError := by
  refine ⟨?_, ?_, ?_⟩
  · simp [draw_nodelabels, textTruthy, h, List.enum, List.enumFrom, Except.map]
    decide
  · intro s hs1 hs2 hs3
    simp [draw_nodelabels, textTruthy, hs1, hs2, hs3, Except.map]
  · simp [draw_nodelabels, textTruthy, Except.map]

/-- Witness for C8: three concrete nodes 7, 8, 9 are labelled "0", "1",
"2". -/
theorem draw_nodelabels_index_spec_witness :
    demoArtist._nodes = some [7, 8, 9] ∧
    draw_nodelabels demoArtist (some (.str "index")) none =
      .ok [{ pos := (7, 0, 0), name := "net.nodelabel.7", text := "0", color := (1, 1, 1) },
           { pos := (8, 0, 0), name := "net.nodelabel.8", text := "1", color := (1, 1, 1) },
           { pos := (9, 0, 0), name := "net.nodelabel.9", text := "2", color := (1, 1, 1) }] := by
  refine ⟨rfl, ?_⟩
  rw [(draw_nodelabels_index_spec demoArtist 7 8 9 none rfl).1]
  rfl

/-- C10: an explicitly empty selection is falsy and falls back to the stored
default selection, so the full default node (edge) set is drawn rather than
nothing; and each call unconditionally overwrites the stored node (edge)
colour with its argument, including `None`. -/
theorem draw_empty_selection_spec (a : NetworkArtist)
    (ncolor : Option (List (Nat × Color))) (ecolor : Option (List ((Nat × Nat) × Color))) :
    draw_nodes a (some []) ncolor = draw_nodes a none ncolor ∧
    draw_edges a (some []) ecolor = draw_edges a none ecolor ∧
    (draw_nodes a (some []) ncolor).1.node_color = ncolor ∧
    (draw_edges a (some []) ecolor).1.edge_color = ecolor ∧
    (a._nodes = none → ∀ cd, (draw_nodes a (some []) (some cd)).2 =
      .ok (a.network.nodeList.map (fun node =>
        { pos := a.node_xyz node,
          name := a.network.name ++ ".node." ++ toString node,
          color := (cd.lookup node).getD a.default_nodecolor,
          radius := (5 : Rat) / 100 }))) ∧
    (a._edges = none → ∀ cd, (draw_edges a (some []) (some cd)).2 =
      .ok (a.network.edgeList.map (fun edge =>
        { startPos := a.node_xyz edge.1, endPos := a.node_xyz edge.2,
          color := (cd.lookup edge).getD a.default_edgecolor,
          name := a.network.name ++ ".edge." ++ toString edge.1 ++ "-" ++ toString edge.2,
          width := (2 : Rat) / 100 }))) := by
  refine ⟨rfl, rfl, rfl, rfl, ?_, ?_⟩
  · intro h cd
    simp [draw_nodes, pySelect, NetworkArtist.nodes, h]
    exact buildList_ok _ _ (fun node => rfl) _
  · intro h cd
    simp [draw_edges, pySelect, NetworkArtist.edges, h]
    exact buildList_ok (edgeLine { a with edge_color := some cd } (some cd))
      (fun edge =>
        { startPos := a.node_xyz edge.1, endPos := a.node_xyz edge.2,
          color := (cd.lookup edge).getD a.default_edgecolor,
          name := a.network.name ++ ".edge." ++ toString edge.1 ++ "-" ++ toString edge.2,
          width := (2 : Rat) / 100 })
      (fun edge => rfl) a.network.edgeList

/-- Witness for C10: an empty selection on an artist with no stored
selection draws all three nodes with the default colour, and the colour
attribute is overwritten with `None`. -/
theorem draw_empty_selection_spec_witness :
    demoArtistAll._nodes = none ∧
    draw_nodes demoArtistAll (some []) none = draw_nodes demoArtistAll none none ∧
    (draw_nodes demoArtistAll (some []) none).1.node_color = none ∧
    (draw_nodes demoArtistAll (some []) (some [])).2 =
      .ok [{ pos := (7, 0, 0), name := "net.node.7", color := (1, 1, 1),
             radius := (5 : Rat) / 100 },
           { pos := (8, 0, 0), name := "net.node.8", color := (1, 1, 1),
             radius := (5 : Rat) / 100 },
           { pos := (9, 0, 0), name := "net.node.9", color := (1, 1, 1),
             radius := (5 : Rat) / 100 }] := by
  have h := draw_empty_selection_spec demoArtistAll none none
  refine ⟨rfl, h.1, h.2.2.1, ?_⟩
  rw [(draw_empty_selection_spec demoArtistAll none none).2.2.2.2.1 rfl []]
  rfl

end Compas
